import Mathlib

/-!
Verification of the fabdb client core: card data model (`fabdb/client/types.py`),
paginated result collection, and the deck-diff engine (`fabdb/client/extended.py`),
shallowly embedded in Lean.  Raised Python exceptions are modelled with `Except PyError`.
-/

/-- The Python exception kinds the embedded code can raise. -/
inductive PyError
  | valueError (msg : String)
  | attributeError (msg : String)
  | indexError (msg : String)
  | typeError (msg : String)
  | zeroDivisionError (msg : String)
deriving DecidableEq

/-- types.py lines 20-27: the four pitch values. -/
inductive PitchValue
  | none
  | red
  | yellow
  | blue
deriving DecidableEq

/-- The underlying integer of each enum member (none=0, red=1, yellow=2, blue=3). -/
def PitchValue.value : PitchValue → Nat
  | PitchValue.none => 0
  | PitchValue.red => 1
  | PitchValue.yellow => 2
  | PitchValue.blue => 3

/-- types.py lines 47-65, `PitchValue.from_int`.  The argument is `Option Int`: `Option.none`
stands for Python `None` (the absent/null sentinel), which maps to the `none` pitch.
An integer outside `-1 < v < 4` raises `ValueError` (the only ints in range are 0..3). -/
def PitchValue.fromInt : Option Int → Except PyError PitchValue
  | Option.none => .ok PitchValue.none
  | some v =>
    if ¬(-1 < v ∧ v < 4) then .error (.valueError "No pitch value")
    else if v = 0 then .ok PitchValue.none
    else if v = 1 then .ok PitchValue.red
    else if v = 2 then .ok PitchValue.yellow
    else .ok PitchValue.blue

/-- types.py lines 8-17: all supertypes for cards, in source order. -/
def CARD_TYPES : List String :=
  ["action", "reaction", "equipment", "hero", "instant", "item", "weapon", "resource"]

/-- Python list indexing `l[i]`: a negative index counts from the end; an index out of
range (after that adjustment) raises `IndexError`. -/
def pyIndex (l : List String) (i : Int) : Except PyError String :=
  let j : Int := if i < 0 then i + l.length else i
  if h : 0 ≤ j ∧ j < l.length then
    .ok (l.get ⟨j.toNat, by omega⟩)
  else .error (.indexError "list index out of range")

/-- A Python slice bound: a negative bound counts from the end, and bounds are clamped
to `[0, n]` (`Int.toNat` of a negative number is 0, matching the lower clamp). -/
def pyBound (n : Nat) (i : Int) : Nat :=
  if i < 0 then (i + n).toNat else min i.toNat n

/-- Python slice `l[:i]`. -/
def pySliceTo (l : List String) (i : Int) : List String := l.take (pyBound l.length i)

/-- Python slice `l[i:]`. -/
def pySliceFrom (l : List String) (i : Int) : List String := l.drop (pyBound l.length i)

/-- types.py lines 163-177: the body of `FabCard._parse_keywords` on a present keyword
list.  `for supertype in CARD_TYPES: if supertype in self.keywords: break` scans
CARD_TYPES in order and leaves `supertype` at the last tried value ("resource") when
nothing matched; `self.keywords.index(supertype)` then raises `ValueError`.  For a
"reaction" the pivot is decremented (Python allows it to become -1, indexing from the
end) and two tokens are consumed. -/
def parseKw (kw : List String) : Except PyError (String × List String × List String) :=
  let supertype := (CARD_TYPES.find? (fun t => decide (t ∈ kw))).getD "resource"
  if supertype ∈ kw then
    let pivot : Int := (kw.indexOf supertype : Nat)
    if supertype = "reaction" then
      match pyIndex kw (pivot - 1) with
      | .error e => .error e
      | .ok prev =>
        .ok (prev ++ " " ++ supertype, pySliceTo kw (pivot - 1), pySliceFrom kw (pivot - 1 + 2))
    else
      .ok (supertype, pySliceTo kw pivot, pySliceFrom kw (pivot + 1))
  else .error (.valueError "is not in list")

/-- types.py lines 149-177, `FabCard._parse_keywords`, including the null-keywords case
(lines 160-161): a null keyword list yields null type, talents and subtypes. -/
def parseKeywords (keywords : Option (List String)) :
    Except PyError (Option String × Option (List String) × Option (List String)) :=
  match keywords with
  | Option.none => .ok (Option.none, Option.none, Option.none)
  | some kw =>
    match parseKw kw with
    | .error e => .error e
    | .ok (st, tal, subs) => .ok (some st, some tal, some subs)

/-- The whitespace-separated components of the supertype string `_parse_keywords` builds:
for a "reaction", the absorbed preceding token (line 172; the last token via Python
negative indexing when the pivot was 0) followed by "reaction"; one token otherwise. -/
def superTokens (kw : List String) : List String :=
  let supertype := (CARD_TYPES.find? (fun t => decide (t ∈ kw))).getD "resource"
  if supertype = "reaction" then
    let pivot : Int := (kw.indexOf supertype : Nat)
    match pyIndex kw (pivot - 1) with
    | .ok prev => [prev, supertype]
    | .error _ => [supertype]
  else [supertype]

/-- The `pivot` sub-dict of a raw ruling (types.py lines 78-80). -/
structure RawPivotInfo where
  card_id : Option Int := Option.none
  ruling_id : Option Int := Option.none
deriving DecidableEq

/-- A raw ruling payload as read by `FabCardRuling.__init__` (types.py lines 72-80).
`pivot` is `Option.none` when the key is absent (`info.get("pivot", {})`). -/
structure RawRulingInfo where
  description : Option String := Option.none
  source : Option String := Option.none
  createdAt : Option String := Option.none
  updatedAt : Option String := Option.none
  pivot : Option RawPivotInfo := Option.none
deriving DecidableEq

/-- types.py lines 68-80, `FabCardRuling`. -/
structure FabCardRuling where
  description : Option String
  source : Option String
  created : Option String
  updated : Option String
  card_id : Option Int
  ruling_id : Option Int
deriving DecidableEq

/-- `FabCardRuling.__init__`. -/
def FabCardRuling.init (info : RawRulingInfo) : FabCardRuling :=
  let pivot := info.pivot.getD {}
  { description := info.description, source := info.source, created := info.createdAt,
    updated := info.updatedAt, card_id := pivot.card_id, ruling_id := pivot.ruling_id }

/-- A raw artist payload as read by `FabCardArtist.__init__` (types.py lines 90-94). -/
structure RawArtistInfo where
  name : Option String := Option.none
  blurb : Option String := Option.none
  image : Option String := Option.none
  slug : Option String := Option.none
deriving DecidableEq

/-- types.py lines 86-94, `FabCardArtist`. -/
structure FabCardArtist where
  name : Option String
  blurb : Option String
  image_url : Option String
  slug : Option String
deriving DecidableEq

/-- `FabCardArtist.__init__`. -/
def FabCardArtist.init (info : RawArtistInfo) : FabCardArtist :=
  { name := info.name, blurb := info.blurb, image_url := info.image, slug := info.slug }

/-- The raw stats mapping (types.py lines 132-137); each key individually optional. -/
structure RawStats where
  cost : Option Int := Option.none
  attack : Option Int := Option.none
  defense : Option Int := Option.none
  resource : Option Int := Option.none
  life : Option Int := Option.none
  intellect : Option Int := Option.none
deriving DecidableEq

/-- The value found at the "stats" key: either a proper mapping, or a non-mapping value
(some responses carry an empty array there, types.py lines 127-130). -/
inductive RawStatsValue
  | mapping (s : RawStats)
  | nonMapping
deriving DecidableEq

/-- A raw card payload: the keys `FabCard.__init__` / `FabDeckCard.__init__` read
(types.py lines 104-140 and 190-192), each absent (`Option.none`) or present. -/
structure RawCardInfo where
  identifier : Option String := Option.none
  name : Option String := Option.none
  legality : Option String := Option.none
  rarity : Option String := Option.none
  keywords : Option (List String) := Option.none
  text : Option String := Option.none
  flavour : Option String := Option.none
  comments : Option String := Option.none
  image : Option String := Option.none
  artist : Option RawArtistInfo := Option.none
  rulings : List RawRulingInfo := []
  next : Option String := Option.none
  prev : Option String := Option.none
  stats : Option RawStatsValue := Option.none
  total : Option Int := Option.none
deriving DecidableEq

/-- types.py lines 100-140, the attributes `FabCard.__init__` assigns.  The Python
attributes `_next` and `_prev` are the fields `nextInfo` and `prevInfo` here. -/
structure FabCard where
  identifier : Option String
  name : Option String
  legality : Option String
  rarity : Option String
  keywords : Option (List String)
  text : Option String
  flavor : Option String
  falvour : Option String
  comments : Option String
  image_url : Option String
  artist : FabCardArtist
  rulings : List FabCardRuling
  nextInfo : Option String
  prevInfo : Option String
  cost : Option Int
  attack : Option Int
  defense : Option Int
  pitch : PitchValue
  life : Option Int
  intellect : Option Int
  type : Option String
  talents : Option (List String)
  subtypes : Option (List String)
deriving DecidableEq

/-- `FabCard.__init__` (types.py lines 104-140): reads each key, substitutes an empty
artist when falsy, an empty stat set when "stats" is absent or not a mapping, takes the
pitch from the "resource" stat (raising `ValueError` when out of range), and derives
type/talents/subtypes from the keywords (raising when a present keyword list holds no
supertype).  Note line 111: `flavor` reads the key "flavour". -/
def FabCard.init (info : RawCardInfo) : Except PyError FabCard :=
  let artist := FabCardArtist.init (info.artist.getD {})
  let rulings := info.rulings.map FabCardRuling.init
  let stats : RawStats :=
    match info.stats with
    | some (RawStatsValue.mapping s) => s
    | _ => {}
  match PitchValue.fromInt stats.resource with
  | .error e => .error e
  | .ok pitch =>
    match parseKeywords info.keywords with
    | .error e => .error e
    | .ok (ty, tal, subs) =>
      .ok { identifier := info.identifier, name := info.name, legality := info.legality,
            rarity := info.rarity, keywords := info.keywords, text := info.text,
            flavor := info.flavour, falvour := info.flavour, comments := info.comments,
            image_url := info.image, artist := artist, rulings := rulings,
            nextInfo := info.next, prevInfo := info.prev,
            cost := stats.cost, attack := stats.attack, defense := stats.defense,
            pitch := pitch, life := stats.life, intellect := stats.intellect,
            type := ty, talents := tal, subtypes := subs }

/-- types.py lines 186-192, `FabDeckCard`: a FabCard plus the `total` attribute. -/
structure FabDeckCard extends FabCard where
  total : Option Int
deriving DecidableEq

/-- `FabDeckCard.__init__`: `super().__init__(info)` then `self.total = info.get("total")`. -/
def FabDeckCard.init (info : RawCardInfo) : Except PyError FabDeckCard :=
  match FabCard.init info with
  | .error e => .error e
  | .ok c => .ok { toFabCard := c, total := info.total }

/-- The attribute names `FabCard.__init__` assigns (types.py lines 104-140), in source
order. -/
def FabCard.attrNames : List String :=
  ["identifier", "name", "legality", "rarity", "keywords", "text", "flavor", "falvour",
   "comments", "image_url", "artist", "rulings", "_next", "_prev",
   "cost", "attack", "defense", "pitch", "life", "intellect", "type", "talents", "subtypes"]

/-- The attribute names `FabDeckCard.__init__` assigns (types.py lines 190-192): the
inherited ones plus "total". -/
def FabDeckCard.attrNames : List String := FabCard.attrNames ++ ["total"]

/-- `FabCard` defines no `__eq__`, so the calls `FabCard.__eq__(a, b)` in extended.py
(lines 16 and 99) resolve to `object.__eq__`, which returns `True` when the two
arguments are the same object and `NotImplemented` otherwise.  Both results are truthy
when truth-tested (CPython before 3.12; 3.12 turns the truth test of `NotImplemented`
into a `TypeError`), so the truth value those call sites observe is constantly true. -/
def FabCard.eqTruthy (_a _b : FabCard) : Bool := true

/-- extended.py lines 6-27: the attributes a would-be FabCardDiff holds — the inherited
FabCard attributes plus card, a, b, delta and diff.  `delta` is `Option Int` because
`self.delta = b.total` can assign Python `None` when `total` is absent. -/
structure FabCardDiff extends FabCard where
  card : FabDeckCard
  a : Option FabDeckCard
  b : Option FabDeckCard
  delta : Option Int
  diff : String
deriving DecidableEq

/-- The attribute read `self.card._raw_info` (extended.py line 25).  Neither
`FabCard.__init__` nor `FabDeckCard.__init__` assigns an attribute named `_raw_info`
(see `FabCard.attrNames` and `FabDeckCard.attrNames`), so the lookup raises
`AttributeError` on every card. -/
def FabDeckCard.getRawInfo (_c : FabDeckCard) : Except PyError RawCardInfo :=
  .error (.attributeError "object has no attribute _raw_info")

/-- The delta computation of `FabCardDiff.__init__` (extended.py lines 29-36).  It is
unreachable in execution because line 25 raises first.  In the both-present case a
missing total would raise `TypeError` at `b.total - a.total`; `Option.none` stands for
that degenerate outcome, which no claim evaluates. -/
def FabCardDiff.deltaOf (a b : Option FabDeckCard) : Option Int :=
  match a, b with
  | Option.none, Option.none => some 0
  | Option.none, some cb => cb.total
  | some ca, Option.none => ca.total.map (fun t => -t)
  | some ca, some cb =>
    match ca.total, cb.total with
    | some ta, some tb => some (tb - ta)
    | _, _ => Option.none

/-- The diff string of `FabCardDiff.__init__` (extended.py lines 38-42): `delta` many "+"
signs when positive, `-delta` many "-" signs when negative, empty otherwise. -/
def FabCardDiff.diffString (delta : Int) : String :=
  if delta > 0 then String.mk (List.replicate delta.toNat (Char.ofNat 43))
  else if delta < 0 then String.mk (List.replicate (-delta).toNat (Char.ofNat 45))
  else ""

/-- `FabCardDiff.__init__` from line 24 on, given the surviving card
(`self.card = a if a is not None else b`): read `_raw_info` (which raises), run the
FabCard constructor on it, then fill delta and diff (a `None` delta would raise
`TypeError` at the comparison on line 39). -/
def FabCardDiff.initBody (card : FabDeckCard) (a b : Option FabDeckCard) :
    Except PyError FabCardDiff :=
  match card.getRawInfo with
  | .error e => .error e
  | .ok raw =>
    match FabCard.init raw with
    | .error e => .error e
    | .ok base =>
      match FabCardDiff.deltaOf a b with
      | Option.none => .error (.typeError "comparison or arithmetic with None total")
      | some d =>
        .ok { toFabCard := base, card := card, a := a, b := b,
              delta := some d, diff := FabCardDiff.diffString d }

/-- extended.py lines 11-42, `FabCardDiff.__init__`.  The first guard
(`a is not None and b is not None and not FabCard.__eq__(a, b)`) can only fire when both
sides are present and the truth test of `FabCard.__eq__` is false — which never happens,
see `FabCard.eqTruthy`.  The second guard rejects two absent sides.  Otherwise the body
runs on the surviving card. -/
def FabCardDiff.init (a b : Option FabDeckCard) : Except PyError FabCardDiff :=
  match a, b with
  | Option.none, Option.none =>
    .error (.valueError "Cannot diff two absent cards!")
  | some ca, some cb =>
    if FabCard.eqTruthy ca.toFabCard cb.toFabCard = false then
      .error (.valueError "FabCardDiff must receive two of the same card")
    else FabCardDiff.initBody ca a b
  | some ca, Option.none => FabCardDiff.initBody ca a b
  | Option.none, some cb => FabCardDiff.initBody cb a b

/-- Both drain loops of `_diff_cards` (extended.py lines 113-118) build `FabCardDiff(c,
None)` for each remaining card — note that the drain of the remainder of `b` (line 118)
also passes its cards as the FIRST constructor argument, despite its comment "add
remaining cards from b". -/
def FabDeckDiff.drain (l : List FabDeckCard) : Except PyError (List FabCardDiff) :=
  l.mapM (fun c => FabCardDiff.init (some c) Option.none)

/-- extended.py lines 87-120, `FabDeckDiff._diff_cards`: the two-pointer loop on the two
sorted sections, recursing on the suffixes not yet consumed.  The branch test on line 99
is the truth test of `FabCard.__eq__(ca, cb)` (constantly true, see `FabCard.eqTruthy`);
the comparison on line 104 is the source's boolean-or test `ca.pitch < cb.pitch or
ca.name < cb.name` (the pitch comparison resolves through the PitchValue dunders to a
comparison of the underlying integers; a `None` name would make Python raise at `<`,
rendered here by comparing the names with "" substituted — the branch is unreachable
anyway). -/
def FabDeckDiff.diffCards : List FabDeckCard → List FabDeckCard →
    Except PyError (List FabCardDiff)
  | ca :: resta, cb :: restb =>
    if FabCard.eqTruthy ca.toFabCard cb.toFabCard then
      match FabCardDiff.init (some ca) (some cb) with
      | .error e => .error e
      | .ok d =>
        match FabDeckDiff.diffCards resta restb with
        | .error e => .error e
        | .ok rest => .ok (d :: rest)
    else if ca.pitch.value < cb.pitch.value ∨ ca.name.getD "" < cb.name.getD "" then
      match FabCardDiff.init (some ca) Option.none with
      | .error e => .error e
      | .ok d =>
        match FabDeckDiff.diffCards resta (cb :: restb) with
        | .error e => .error e
        | .ok rest => .ok (d :: rest)
    else
      match FabCardDiff.init Option.none (some cb) with
      | .error e => .error e
      | .ok d =>
        match FabDeckDiff.diffCards (ca :: resta) restb with
        | .error e => .error e
        | .ok rest => .ok (d :: rest)
  | resta, [] => FabDeckDiff.drain resta
  | [], cb :: restb => FabDeckDiff.drain (cb :: restb)
termination_by a b => a.length + b.length
decreasing_by all_goals simp_wf <;> omega

/-- The argument pairs `_diff_cards` passes to the FabCardDiff constructor, in order,
following the same control flow as `FabDeckDiff.diffCards` (execution aborts at the
first raising construction, but the pair sequence is fixed by the loop alone). -/
def FabDeckDiff.diffCallPairs : List FabDeckCard → List FabDeckCard →
    List (Option FabDeckCard × Option FabDeckCard)
  | ca :: resta, cb :: restb =>
    if FabCard.eqTruthy ca.toFabCard cb.toFabCard then
      (some ca, some cb) :: FabDeckDiff.diffCallPairs resta restb
    else if ca.pitch.value < cb.pitch.value ∨ ca.name.getD "" < cb.name.getD "" then
      (some ca, Option.none) :: FabDeckDiff.diffCallPairs resta (cb :: restb)
    else
      (Option.none, some cb) :: FabDeckDiff.diffCallPairs (ca :: resta) restb
  | resta, [] => resta.map (fun c => (some c, Option.none))
  | [], cb :: restb => (cb :: restb).map (fun c => (some c, Option.none))
termination_by a b => a.length + b.length
decreasing_by all_goals simp_wf <;> omega

/-- types.py lines 274-327, the attributes of a FabDeck: metadata and the five card
sections (`hero` is the card whose keywords contain "hero"; the lists are kept sorted by
`(pitch.value, name)` by `_sort`). -/
structure FabDeck where
  slug : Option String := Option.none
  name : Option String := Option.none
  format : Option String := Option.none
  notes : Option String := Option.none
  visibility : Option String := Option.none
  card_back : Option String := Option.none
  created : Option String := Option.none
  total_votes : Option Int := Option.none
  my_vote : Option Int := Option.none
  cards : List FabDeckCard := []
  sideboard : List FabDeckCard := []
  hero : Option FabDeckCard := Option.none
  weapons : List FabDeckCard := []
  equipment : List FabDeckCard := []
deriving DecidableEq

/-- extended.py lines 59-75: the diff mirrors the shape of a FabDeck. -/
structure FabDeckDiff where
  a : FabDeck
  b : FabDeck
  hero : FabCardDiff
  weapons : List FabCardDiff
  equipment : List FabCardDiff
  cards : List FabCardDiff
  sideboard : List FabCardDiff
deriving DecidableEq

/-- extended.py lines 63-85, `FabDeckDiff.__init__` / `_compute_diff`: diff the heroes,
then merge each pair of sections in source order. -/
def FabDeckDiff.compute (a b : FabDeck) : Except PyError FabDeckDiff := do
  let hero ← FabCardDiff.init a.hero b.hero
  let weapons ← FabDeckDiff.diffCards a.weapons b.weapons
  let equipment ← FabDeckDiff.diffCards a.equipment b.equipment
  let cards ← FabDeckDiff.diffCards a.cards b.cards
  let sideboard ← FabDeckDiff.diffCards a.sideboard b.sideboard
  return { a := a, b := b, hero := hero, weapons := weapons, equipment := equipment,
           cards := cards, sideboard := sideboard }

/-- types.py lines 199-217, the state of a FabCardResults collection: the pagination
metadata (`meta.per_page`, `meta.last_page`, `meta.total`) and the sparse page cache
(`self._pages`, one slot per page, `Option.none` for a not-yet-fetched slot).  The
client and stored query are not part of the state here; the remote call
`self.client._get("cards", query + page)` is the `fetch` argument of the operations
below, keyed by the one-indexed page number the source sends. -/
structure FabCardResults where
  page_size : Nat
  total_pages : Nat
  total_results : Nat
  pages : List (Option (List FabCard))
deriving DecidableEq

/-- types.py lines 219-227, `FabCardResults._load_page`: decode every raw card of the
page (a raise inside the comprehension aborts the call) and store the list at the slot
(an out-of-range slot assignment would raise `IndexError`). -/
def FabCardResults.loadPage (r : FabCardResults) (number : Nat) (data : List RawCardInfo) :
    Except PyError FabCardResults :=
  match data.mapM FabCard.init with
  | .error e => .error e
  | .ok page =>
    if number < r.pages.length then
      .ok { r with pages := r.pages.set number (some page) }
    else .error (.indexError "list assignment index out of range")

/-- types.py lines 229-236, `FabCardResults._get_page`: fetch page `number` through the
client — `page_query["page"] = number+1`, the API being one-indexed — and load it. -/
def FabCardResults.getPage (fetch : Nat → List RawCardInfo) (r : FabCardResults)
    (number : Nat) : Except PyError FabCardResults :=
  r.loadPage number (fetch (number + 1))

/-- The final reads of `__getitem__` (types.py lines 253-254): `page =
self._pages[item_page]; return page[item_index]`.  The extra `List Nat` component
threads through which (zero-based) pages the call fetched remotely. -/
def FabCardResults.readItem (r : FabCardResults) (item_page item_index : Nat)
    (fetched : List Nat) : Except PyError (FabCard × FabCardResults × List Nat) :=
  match r.pages.get? item_page with
  | some (some page) =>
    match page.get? item_index with
    | some c => .ok (c, r, fetched)
    | Option.none => .error (.indexError "list index out of range")
  | _ => .error (.indexError "list index out of range")

/-- types.py lines 238-254, `FabCardResults.__getitem__`: reject an index at or beyond
`total_results`; resolve the page (`index // page_size`, a zero page size would raise
`ZeroDivisionError`) and the offset (`index % page_size`); fetch the page if and only if
its cache slot is empty (`self._pages[item_page] == None` — a loaded page, being a list,
never equals None), filling the slot before the read; return the item at the offset.
The result carries the updated state and the pages fetched during the call. -/
def FabCardResults.getItem (fetch : Nat → List RawCardInfo) (r : FabCardResults)
    (index : Nat) : Except PyError (FabCard × FabCardResults × List Nat) :=
  if r.total_results ≤ index then .error (.indexError "list index out of range")
  else if r.page_size = 0 then .error (.zeroDivisionError "integer division or modulo by zero")
  else
    let item_page := index / r.page_size
    let item_index := index % r.page_size
    match r.pages.get? item_page with
    | Option.none => .error (.indexError "list index out of range")
    | some Option.none =>
      match r.getPage fetch item_page with
      | .error e => .error e
      | .ok r2 => r2.readItem item_page item_index [item_page]
    | some (some _) => r.readItem item_page item_index []

/-- types.py lines 256-260, `FabCardResults.__len__`: the total result count, read
straight off the state — no fetch, no mutation. -/
def FabCardResults.len (r : FabCardResults) : Nat := r.total_results

/-- The page-content invariant tying a collection state, the remote pages and their
decoded contents together: positive page size, consistent metadata, and both the cached
slots and the remote pages decode to `content k` — page `k` holding the items
`[k*page_size, (k+1)*page_size)` of the logical sequence, the last page possibly
shorter. -/
structure FabCardResults.WF (fetch : Nat → List RawCardInfo) (r : FabCardResults)
    (content : Nat → List FabCard) : Prop where
  ps_pos : 0 < r.page_size
  pages_len : r.pages.length = r.total_pages
  total_le : r.total_results ≤ r.total_pages * r.page_size
  content_len : ∀ k, k < r.total_pages →
    (content k).length = min r.page_size (r.total_results - k * r.page_size)
  fetch_ok : ∀ k, k < r.total_pages → (fetch (k + 1)).mapM FabCard.init = .ok (content k)
  cached_ok : ∀ k pg, r.pages.get? k = some (some pg) → pg = content k

/-- The FabCard produced from an empty raw mapping: every field absent, the empty artist,
the `none` pitch and null derived keyword fields. -/
def FabCard.empty : FabCard :=
  { identifier := Option.none, name := Option.none, legality := Option.none,
    rarity := Option.none, keywords := Option.none, text := Option.none,
    flavor := Option.none, falvour := Option.none, comments := Option.none,
    image_url := Option.none,
    artist := { name := Option.none, blurb := Option.none, image_url := Option.none,
                slug := Option.none },
    rulings := [], nextInfo := Option.none, prevInfo := Option.none,
    cost := Option.none, attack := Option.none, defense := Option.none,
    pitch := PitchValue.none, life := Option.none, intellect := Option.none,
    type := Option.none, talents := Option.none, subtypes := Option.none }

/-- The deck card a raw payload decodes to (falling back to an empty card on a raising
payload; every fixture below decodes successfully). -/
def mkCard (info : RawCardInfo) : FabDeckCard :=
  match FabDeckCard.init info with
  | .ok c => c
  | .error _ => { toFabCard := FabCard.empty, total := Option.none }

/-- Fixture: the card "Apple", blue pitch (3), one copy. -/
def rawAppleBlue : RawCardInfo :=
  { name := some "Apple", keywords := some ["generic", "action"],
    stats := some (RawStatsValue.mapping { resource := some 3 }), total := some 1 }

/-- Fixture: the card "Banana", red pitch (1), one copy. -/
def rawBananaRed : RawCardInfo :=
  { name := some "Banana", keywords := some ["generic", "action"],
    stats := some (RawStatsValue.mapping { resource := some 1 }), total := some 1 }

/-- Fixture: the card "Y", blue pitch (3), one copy (the card of C2's concrete case). -/
def rawCardY : RawCardInfo :=
  { name := some "Y", keywords := some ["generic", "action"],
    stats := some (RawStatsValue.mapping { resource := some 3 }), total := some 1 }

/-- Fixture: a payload whose keyword list contains no supertype token and that supplies
no pitch at all. -/
def rawNoSupertype : RawCardInfo :=
  { name := some "Oddball", keywords := some ["generic"] }

/-- Fixture: a payload whose "stats" value is a non-mapping (the empty-array case). -/
def rawArrayStats : RawCardInfo :=
  { name := some "Statless", keywords := some ["generic", "action"],
    stats := some RawStatsValue.nonMapping }

/-- The pitch integer a raw payload supplies: the "resource" entry of a mapping-valued
"stats" key (a missing key, a missing entry, or a non-mapping stats value supplies
none). -/
def suppliedPitch (info : RawCardInfo) : Option Int :=
  match info.stats with
  | some (RawStatsValue.mapping s) => s.resource
  | _ => Option.none

/-- The state of a collection after caching the contents of page `p` — the slot update
`_load_page` performs. -/
def FabCardResults.withPage (r : FabCardResults) (p : Nat) (pg : List FabCard) :
    FabCardResults :=
  { r with pages := r.pages.set p (some pg) }

/-- Fixture: a remote source for a 5-result, 2-per-page collection (keyed by the
one-indexed page number the client sends): pages 1 and 2 hold two empty card payloads
each, page 3 holds one. -/
def fetchFixture : Nat → List RawCardInfo := fun p =>
  if p = 3 then [{}] else [{}, {}]

/-- Fixture: the decoded contents of each zero-based page of `fetchFixture`. -/
def contentFixture : Nat → List FabCard := fun k =>
  if k = 2 then [FabCard.empty] else [FabCard.empty, FabCard.empty]

/-- Fixture: the collection state after construction — page 0 cached, pages 1 and 2
unfetched. -/
def resultsFixture : FabCardResults :=
  { page_size := 2, total_pages := 3, total_results := 5,
    pages := [some [FabCard.empty, FabCard.empty], Option.none, Option.none] }

example : FabCard.init {} = .ok FabCard.empty := rfl
example : FabDeckCard.init rawAppleBlue = .ok (mkCard rawAppleBlue) := rfl
example : (mkCard rawAppleBlue).pitch = PitchValue.blue := rfl
example : (mkCard rawBananaRed).pitch = PitchValue.red := rfl
example : (mkCard rawCardY).total = some 1 := rfl

/-- C1 (exhibit of the code bug): "Apple" (pitch 3) and "Banana" (pitch 1) are distinct
logical cards — their `(pitch.value, name)` keys differ, with Banana's key the
lexicographically smaller — yet the section-merge passes the two cursor cards as a
PAIRED constructor call instead of emitting a one-sided diff for the smaller side: the
truth test of `FabCard.__eq__` on line 99 is constantly true, so the "smaller key"
branch is unreachable, one single diff entry is attempted for the two distinct keys, and
the run aborts with `AttributeError` at the `_raw_info` read. -/
theorem merge_pairs_mismatched_cards :
    (mkCard rawBananaRed).pitch.value < (mkCard rawAppleBlue).pitch.value ∧
    FabDeckDiff.diffCallPairs [mkCard rawAppleBlue] [mkCard rawBananaRed] =
      [(some (mkCard rawAppleBlue), some (mkCard rawBananaRed))] ∧
    FabDeckDiff.diffCards [mkCard rawAppleBlue] [mkCard rawBananaRed] =
      .error (.attributeError "object has no attribute _raw_info") := by
  refine ⟨by decide, by simp [FabDeckDiff.diffCallPairs, FabCard.eqTruthy], ?_⟩
  simp [FabDeckDiff.diffCards, FabCard.eqTruthy, FabCardDiff.init, FabCardDiff.initBody,
    FabDeckCard.getRawInfo]

/-- C2 (exhibit of the code bug): diffing an empty section of deck `a` against the
section of deck `b` holding card "Y" (pitch blue, total 1) reaches the drain of `b`
(extended.py line 118), which passes Y as the FIRST (a-side) constructor argument — so
the one diff constructed has its a-side populated and b-side absent, the delta the
constructor would compute for those arguments is -1 (not +1; `(Option.none, some Y)`
would give +1), and the construction itself aborts with `AttributeError` at the
`_raw_info` read. -/
theorem drain_from_b_populates_a_side :
    FabDeckDiff.diffCallPairs [] [mkCard rawCardY] = [(some (mkCard rawCardY), Option.none)] ∧
    FabDeckDiff.diffCards [] [mkCard rawCardY] =
      .error (.attributeError "object has no attribute _raw_info") ∧
    FabCardDiff.deltaOf (some (mkCard rawCardY)) Option.none = some (-1) ∧
    FabCardDiff.deltaOf Option.none (some (mkCard rawCardY)) = some 1 := by
  refine ⟨by simp [FabDeckDiff.diffCallPairs], ?_, rfl, rfl⟩
  simp only [FabDeckDiff.diffCards]
  rfl

/-- C3 (exhibit of the code bug): constructing a FabCardDiff from two present cards that
are NOT the same logical card ("Apple" and "Banana", different names and pitches) does
not raise the mismatch `ValueError` — the guard on extended.py line 16 truth-tests
`FabCard.__eq__`, which is `object.__eq__` and truthy for any two objects — the
construction instead fails at the `_raw_info` read; two absent sides do raise the
intended `ValueError`. -/
theorem mismatch_guard_never_fires :
    (mkCard rawAppleBlue).name ≠ (mkCard rawBananaRed).name ∧
    (mkCard rawAppleBlue).pitch ≠ (mkCard rawBananaRed).pitch ∧
    FabCardDiff.init (some (mkCard rawAppleBlue)) (some (mkCard rawBananaRed)) =
      .error (.attributeError "object has no attribute _raw_info") ∧
    FabCardDiff.init Option.none Option.none =
      .error (.valueError "Cannot diff two absent cards!") := by
  exact ⟨by decide, by decide, rfl, rfl⟩

/-- C4: no card constructor assigns an attribute named `_raw_info` — it is absent from
the attribute sets of both `FabCard.__init__` and `FabDeckCard.__init__` — so every
FabCardDiff construction that passes the two guard checks (at least one side present;
the mismatch guard never fires) aborts with `AttributeError` at the `_raw_info` read on
extended.py line 25, and consequently every FabDeckDiff construction whose hero pair
passes the guards aborts the same way before producing any diff. -/
theorem raw_info_attribute_missing :
    ("_raw_info" ∉ FabCard.attrNames ∧ "_raw_info" ∉ FabDeckCard.attrNames) ∧
    (∀ a b : Option FabDeckCard, (a.isSome ∨ b.isSome) →
      FabCardDiff.init a b = .error (.attributeError "object has no attribute _raw_info")) ∧
    (∀ da db : FabDeck, (da.hero.isSome ∨ db.hero.isSome) →
      FabDeckDiff.compute da db =
        .error (.attributeError "object has no attribute _raw_info")) := by
  have hinit : ∀ a b : Option FabDeckCard, (a.isSome ∨ b.isSome) →
      FabCardDiff.init a b = .error (.attributeError "object has no attribute _raw_info") := by
    intro a b hab
    match a, b with
    | Option.none, Option.none => simp at hab
    | some ca, some cb =>
      simp [FabCardDiff.init, FabCard.eqTruthy, FabCardDiff.initBody, FabDeckCard.getRawInfo]
    | some ca, Option.none =>
      simp [FabCardDiff.init, FabCardDiff.initBody, FabDeckCard.getRawInfo]
    | Option.none, some cb =>
      simp [FabCardDiff.init, FabCardDiff.initBody, FabDeckCard.getRawInfo]
  refine ⟨⟨by decide, by decide⟩, hinit, ?_⟩
  intro da db h
  rw [FabDeckDiff.compute, hinit da.hero db.hero ?_]
  · rfl
  · cases h with
    | inl h => exact Or.inl h
    | inr h => exact Or.inr h

/-- Witness for C4 at concrete inputs: a one-sided pair, and a pair of decks of which one
has a hero. -/
theorem raw_info_attribute_missing_witness :
    FabCardDiff.init (some (mkCard rawCardY)) Option.none =
      .error (.attributeError "object has no attribute _raw_info") ∧
    FabDeckDiff.compute { hero := some (mkCard rawAppleBlue) } {} =
      .error (.attributeError "object has no attribute _raw_info") :=
  ⟨raw_info_attribute_missing.2.1 (some (mkCard rawCardY)) Option.none (Or.inl rfl),
   raw_info_attribute_missing.2.2 { hero := some (mkCard rawAppleBlue) } {} (Or.inl rfl)⟩

/-- C9: for every integer v in [0,3], `PitchValue.from_int(v)` succeeds with a pitch
whose underlying integer equals v; for every integer v outside [0,3] it raises the
invalid-pitch `ValueError` (the null sentinel, handled separately, maps to the `none`
pitch). -/
theorem pitch_from_int_spec (v : Int) :
    (0 ≤ v ∧ v ≤ 3 → ∃ p, PitchValue.fromInt (some v) = .ok p ∧ (p.value : Int) = v) ∧
    (v < 0 ∨ 3 < v → PitchValue.fromInt (some v) = .error (.valueError "No pitch value")) := by
  constructor
  · rintro ⟨h0, h3⟩
    interval_cases v
    · exact ⟨PitchValue.none, rfl, rfl⟩
    · exact ⟨PitchValue.red, rfl, rfl⟩
    · exact ⟨PitchValue.yellow, rfl, rfl⟩
    · exact ⟨PitchValue.blue, rfl, rfl⟩
  · intro h
    have hrange : ¬(-1 < v ∧ v < 4) := by omega
    simp [PitchValue.fromInt, hrange]

/-- Witness for C9 at v = 2 (in range) and v = 7 (out of range). -/
theorem pitch_from_int_spec_witness :
    (∃ p, PitchValue.fromInt (some 2) = .ok p ∧ (p.value : Int) = 2) ∧
    PitchValue.fromInt (some 7) = .error (.valueError "No pitch value") :=
  ⟨(pitch_from_int_spec 2).1 (by decide), (pitch_from_int_spec 7).2 (by omega)⟩
lemma pyBound_natCast (n k : Nat) : pyBound n (k : Int) = min k n := by
  unfold pyBound
  rw [if_neg (by omega), Int.toNat_natCast]

lemma pySliceTo_natCast (l : List String) (k : Nat) : pySliceTo l (k : Int) = l.take k := by
  rw [pySliceTo, pyBound_natCast]
  rcases le_total k l.length with h | h
  · rw [Nat.min_eq_left h]
  · rw [Nat.min_eq_right h, List.take_length, List.take_of_length_le h]

lemma pySliceFrom_natCast (l : List String) (k : Nat) : pySliceFrom l (k : Int) = l.drop k := by
  rw [pySliceFrom, pyBound_natCast]
  rcases le_total k l.length with h | h
  · rw [Nat.min_eq_left h]
  · rw [Nat.min_eq_right h, List.drop_length, List.drop_of_length_le h]

lemma pyIndex_natCast {l : List String} {k : Nat} {c : String} (h : l.get? k = some c) :
    pyIndex l (k : Int) = .ok c := by
  have hk : k < l.length := List.get?_eq_some.mp h |>.choose
  have hcond : 0 ≤ (k : Int) ∧ (k : Int) < l.length := ⟨by omega, by exact_mod_cast hk⟩
  simp only [pyIndex, if_neg (by omega : ¬((k : Int) < 0)), dif_pos hcond]
  obtain ⟨hlt, hget⟩ := List.get?_eq_some.mp h
  simp only [Int.toNat_natCast]
  exact congrArg Except.ok (by simpa using hget)

lemma indexOf_append_cons {l₁ l₂ : List String} {t : String} (h : t ∉ l₁) :
    (l₁ ++ t :: l₂).indexOf t = l₁.length := by
  rw [List.indexOf_append_of_not_mem h, List.indexOf_cons_self, Nat.add_zero]

lemma parseKw_split_plain {l₁ l₂ : List String} {t : String} (hne : t ≠ "reaction")
    (hfind : CARD_TYPES.find? (fun u => decide (u ∈ l₁ ++ t :: l₂)) = some t)
    (hnm : t ∉ l₁) :
    parseKw (l₁ ++ t :: l₂) = .ok (t, l₁, l₂) := by
  have hmem : t ∈ l₁ ++ t :: l₂ := by simp
  simp only [parseKw, hfind, Option.getD_some, if_pos hmem, if_neg hne,
    indexOf_append_cons hnm]
  have h1 : pySliceTo (l₁ ++ t :: l₂) (l₁.length : Int) = l₁ := by
    rw [pySliceTo_natCast, List.take_left]
  have h2 : pySliceFrom (l₁ ++ t :: l₂) ((l₁.length : Int) + 1) = l₂ := by
    have hc : ((l₁.length : Int) + 1) = ((l₁.length + 1 : Nat) : Int) := by push_cast; ring
    have hl : l₁ ++ t :: l₂ = (l₁ ++ [t]) ++ l₂ := by simp
    rw [hc, pySliceFrom_natCast, hl, List.drop_left' (by simp)]
  rw [h1, h2]

lemma superTokens_split_plain {l₁ l₂ : List String} {t : String} (hne : t ≠ "reaction")
    (hfind : CARD_TYPES.find? (fun u => decide (u ∈ l₁ ++ t :: l₂)) = some t) :
    superTokens (l₁ ++ t :: l₂) = [t] := by
  simp only [superTokens, hfind, Option.getD_some, if_neg hne]

lemma parseKw_split_reaction {l₁ l₂ : List String} {prev : String}
    (hfind : CARD_TYPES.find?
      (fun u => decide (u ∈ l₁ ++ prev :: "reaction" :: l₂)) = some "reaction")
    (hnm : "reaction" ∉ l₁) (hprev : prev ≠ "reaction") :
    parseKw (l₁ ++ prev :: "reaction" :: l₂) =
      .ok (prev ++ " " ++ "reaction", l₁, l₂) := by
  have hmem : "reaction" ∈ l₁ ++ prev :: "reaction" :: l₂ := by simp
  have hsplit : l₁ ++ prev :: "reaction" :: l₂ = (l₁ ++ [prev]) ++ "reaction" :: l₂ := by simp
  have hnm2 : "reaction" ∉ l₁ ++ [prev] := by
    simp only [List.mem_append, List.mem_singleton]
    rintro (h | h)
    · exact hnm h
    · exact hprev h.symm
  have hidx : (l₁ ++ prev :: "reaction" :: l₂).indexOf "reaction" = l₁.length + 1 := by
    rw [hsplit, indexOf_append_cons hnm2]
    simp
  have hpm1 : ((l₁.length + 1 : Nat) : Int) - 1 = (l₁.length : Int) := by push_cast; ring
  have hget : (l₁ ++ prev :: "reaction" :: l₂).get? l₁.length = some prev := by
    rw [List.get?_append_right (le_refl _), Nat.sub_self]
    rfl
  have hslice1 : pySliceTo (l₁ ++ prev :: "reaction" :: l₂) (l₁.length : Int) = l₁ := by
    rw [pySliceTo_natCast, List.take_left]
  have hslice2 : pySliceFrom (l₁ ++ prev :: "reaction" :: l₂) ((l₁.length : Int) + 2) = l₂ := by
    have hc : ((l₁.length : Int) + 2) = ((l₁.length + 2 : Nat) : Int) := by push_cast; ring
    have hl : l₁ ++ prev :: "reaction" :: l₂ = (l₁ ++ [prev, "reaction"]) ++ l₂ := by simp
    rw [hc, pySliceFrom_natCast, hl, List.drop_left' (by simp)]
  simp only [parseKw, hfind, Option.getD_some, if_pos hmem, hidx, hpm1,
    pyIndex_natCast hget, hslice1, hslice2]
  simp

lemma superTokens_split_reaction {l₁ l₂ : List String} {prev : String}
    (hfind : CARD_TYPES.find?
      (fun u => decide (u ∈ l₁ ++ prev :: "reaction" :: l₂)) = some "reaction")
    (hnm : "reaction" ∉ l₁) (hprev : prev ≠ "reaction") :
    superTokens (l₁ ++ prev :: "reaction" :: l₂) = [prev, "reaction"] := by
  have hsplit : l₁ ++ prev :: "reaction" :: l₂ = (l₁ ++ [prev]) ++ "reaction" :: l₂ := by simp
  have hnm2 : "reaction" ∉ l₁ ++ [prev] := by
    simp only [List.mem_append, List.mem_singleton]
    rintro (h | h)
    · exact hnm h
    · exact hprev h.symm
  have hidx : (l₁ ++ prev :: "reaction" :: l₂).indexOf "reaction" = l₁.length + 1 := by
    rw [hsplit, indexOf_append_cons hnm2]
    simp
  have hpm1 : ((l₁.length + 1 : Nat) : Int) - 1 = (l₁.length : Int) := by push_cast; ring
  have hget : (l₁ ++ prev :: "reaction" :: l₂).get? l₁.length = some prev := by
    rw [List.get?_append_right (le_refl _), Nat.sub_self]
    rfl
  simp only [superTokens, hfind, Option.getD_some, hidx, hpm1, pyIndex_natCast hget]
  simp

lemma find?_eq_of_unique {l : List String} {p : String → Bool} {t : String}
    (ht : t ∈ l) (hp : p t = true) (huniq : ∀ u, u ∈ l → p u = true → u = t) :
    l.find? p = some t := by
  have hs : (l.find? p).isSome := List.find?_isSome.mpr ⟨t, ht, hp⟩
  obtain ⟨y, hy⟩ := Option.isSome_iff_exists.mp hs
  rw [hy, huniq y (List.mem_of_find?_eq_some hy) (List.find?_some hy)]

lemma countP_one_split {p : String → Bool} {l : List String} (h : l.countP p = 1) :
    ∃ l₁ t l₂, l = l₁ ++ t :: l₂ ∧ p t = true ∧ l₁.countP p = 0 ∧ l₂.countP p = 0 := by
  induction l with
  | nil => simp [List.countP_nil] at h
  | cons a tl ih =>
    rw [List.countP_cons] at h
    by_cases hp : p a
    · have h0 : tl.countP p = 0 := by
        simp [hp] at h
        exact List.countP_eq_zero.mpr (fun x hx => by rw [h x hx]; exact Bool.false_ne_true)
      exact ⟨[], a, tl, rfl, hp, by simp [List.countP_nil], h0⟩
    · simp [hp] at h
      obtain ⟨l₁, t, l₂, rfl, hpt, h1, h2⟩ := ih h
      refine ⟨a :: l₁, t, l₂, rfl, hpt, ?_, h2⟩
      rw [List.countP_eq_zero]
      intro x hx
      rcases List.mem_cons.mp hx with rfl | hx2
      · exact hp
      · exact List.countP_eq_zero.mp h1 x hx2

lemma find?_min_indexOf {l : List String} {p : String → Bool} {b : String}
    (h : l.find? p = some b) :
    ∀ u, u ∈ l → p u = true → l.indexOf b ≤ l.indexOf u := by
  induction l with
  | nil => simp at h
  | cons a tl ih =>
    intro u hu hpu
    by_cases hpa : p a
    · rw [List.find?_cons_of_pos _ hpa] at h
      injection h with h
      subst h
      rw [List.indexOf_cons_self]
      omega
    · rw [List.find?_cons_of_neg _ hpa] at h
      have hba : a ≠ b := fun e => hpa (e ▸ List.find?_some h)
      rcases List.mem_cons.mp hu with rfl | hu2
      · exact absurd hpu hpa
      · have hau : a ≠ u := fun e => hpa (e ▸ hpu)
        rw [List.indexOf_cons_ne _ hba, List.indexOf_cons_ne _ hau]
        exact Nat.succ_le_succ (ih h u hu2 hpu)

lemma takeWhile_ne_decomp {l : List String} {a : String} (h : a ∈ l) :
    l = l.takeWhile (fun x => decide (x ≠ a)) ++
        a :: (l.dropWhile (fun x => decide (x ≠ a))).tail ∧
    a ∉ l.takeWhile (fun x => decide (x ≠ a)) := by
  induction l with
  | nil => cases h
  | cons b tl ih =>
    by_cases hb : b = a
    · subst hb
      simp [List.takeWhile_cons, List.dropWhile_cons]
    · have hd : (fun x => decide (x ≠ a)) b = true := by simp [hb]
      have h' : a ∈ tl := by
        rcases List.mem_cons.mp h with rfl | h2
        · exact absurd rfl hb
        · exact h2
      obtain ⟨e, hnm⟩ := ih h'
      have htw : List.takeWhile (fun x => decide (x ≠ a)) (b :: tl) =
          b :: List.takeWhile (fun x => decide (x ≠ a)) tl := by
        simp [List.takeWhile_cons, hb]
      have hdw : List.dropWhile (fun x => decide (x ≠ a)) (b :: tl) =
          List.dropWhile (fun x => decide (x ≠ a)) tl := by
        simp [List.dropWhile_cons, hb]
      constructor
      · rw [htw, hdw, List.cons_append]
        exact congrArg (b :: ·) e
      · rw [htw]
        intro hmem
        rcases List.mem_cons.mp hmem with rfl | h3
        · exact hb rfl
        · exact hnm h3

/-- C6 (amended): for every keyword sequence containing exactly one token of the
supertype set which, when it is "reaction", is not the leading token, concatenating the
derived talents, the supertype token(s) (one token, or two for a reaction) and the
derived subtypes reconstructs the original keyword sequence exactly.  (The claim as
stated fails at the sequence ["reaction"]: Python negative indexing absorbs the LAST
token, duplicating it — see the counterexample.) -/
theorem keyword_reconstruction (kw : List String)
    (h1 : kw.countP (fun t => decide (t ∈ CARD_TYPES)) = 1)
    (h2 : kw.head? ≠ some "reaction") :
    ∃ st tal subs, parseKw kw = .ok (st, tal, subs) ∧ tal ++ superTokens kw ++ subs = kw := by
  obtain ⟨l₁, t, l₂, rfl, hpt, hc1, hc2⟩ := countP_one_split h1
  have ht : t ∈ CARD_TYPES := of_decide_eq_true hpt
  have hn1 : ∀ u ∈ l₁, u ∉ CARD_TYPES := fun u hu hmem =>
    (List.countP_eq_zero.mp hc1 u hu) (decide_eq_true hmem)
  have hn2 : ∀ u ∈ l₂, u ∉ CARD_TYPES := fun u hu hmem =>
    (List.countP_eq_zero.mp hc2 u hu) (decide_eq_true hmem)
  have hnm : t ∉ l₁ := fun hmem => hn1 t hmem ht
  have hfind : CARD_TYPES.find? (fun u => decide (u ∈ l₁ ++ t :: l₂)) = some t := by
    apply find?_eq_of_unique ht (decide_eq_true (by simp))
    intro u hu hpu
    have humem : u ∈ l₁ ++ t :: l₂ := of_decide_eq_true hpu
    rcases List.mem_append.mp humem with hul | hur
    · exact absurd hu (hn1 u hul)
    · rcases List.mem_cons.mp hur with rfl | hul2
      · rfl
      · exact absurd hu (hn2 u hul2)
  by_cases hre : t = "reaction"
  · subst hre
    have hl1 : l₁ ≠ [] := by
      intro he
      subst he
      simp at h2
    obtain ⟨l₁p, prev, hdec⟩ : ∃ l₁p prev, l₁ = l₁p ++ [prev] :=
      ⟨l₁.dropLast, l₁.getLast hl1, (List.dropLast_append_getLast hl1).symm⟩
    subst hdec
    have hprev : prev ≠ "reaction" := by
      intro he
      exact hn1 prev (by simp) (he ▸ ht)
    have hnm2 : "reaction" ∉ l₁p := fun hm => hnm (by simp [hm])
    have heq : l₁p ++ [prev] ++ "reaction" :: l₂ = l₁p ++ prev :: "reaction" :: l₂ := by simp
    rw [heq] at hfind ⊢
    rw [parseKw_split_reaction hfind hnm2 hprev,
      superTokens_split_reaction hfind hnm2 hprev]
    exact ⟨_, _, _, rfl, by simp⟩
  · rw [parseKw_split_plain hre hfind hnm, superTokens_split_plain hre hfind]
    exact ⟨_, _, _, rfl, by simp⟩

/-- Witness for C6 at the docstring example ["generic", "action", "attack"]. -/
theorem keyword_reconstruction_witness :
    ∃ st tal subs, parseKw ["generic", "action", "attack"] = .ok (st, tal, subs) ∧
      tal ++ superTokens ["generic", "action", "attack"] ++ subs =
        ["generic", "action", "attack"] :=
  keyword_reconstruction ["generic", "action", "attack"] (by decide) (by decide)

lemma takeWhile_prefix_take (l : List String) (p : String → Bool) :
    l.take ((l.takeWhile p).length) = l.takeWhile p :=
  (List.prefix_iff_eq_take.mp (List.takeWhile_prefix p)).symm

/-- C5 (amended): for every keyword sequence containing at least one supertype token —
scanning, however, the fixed CARD_TYPES list in ITS order for the first member occurring
anywhere in the keywords (not the keyword sequence for the first token in the set) — the
pivot is the index of that supertype's first occurrence; talents are exactly the tokens
strictly before the (for a reaction: backed-up) pivot and subtypes exactly the tokens
strictly after pivot + tokens_consumed (2 for a reaction, 1 otherwise).  Sequences whose
selected supertype is a leading "reaction" are excluded (Python negative indexing wraps
there). -/
theorem classification_by_card_types_order (kw : List String)
    (h1 : ∃ t, t ∈ CARD_TYPES ∧ t ∈ kw)
    (h2 : "reaction" ∈ kw → "action" ∈ kw ∨ kw.head? ≠ some "reaction") :
    ∃ st, st ∈ CARD_TYPES ∧ st ∈ kw ∧
      (∀ u, u ∈ CARD_TYPES → u ∈ kw → CARD_TYPES.indexOf st ≤ CARD_TYPES.indexOf u) ∧
      (st ≠ "reaction" →
        parseKw kw = .ok (st,
          kw.take ((kw.takeWhile (fun x => decide (x ≠ st))).length),
          kw.drop ((kw.takeWhile (fun x => decide (x ≠ st))).length + 1))) ∧
      (st = "reaction" →
        1 ≤ (kw.takeWhile (fun x => decide (x ≠ st))).length ∧
        parseKw kw = .ok (
          (kw.get? ((kw.takeWhile (fun x => decide (x ≠ st))).length - 1)).getD "" ++
            " " ++ "reaction",
          kw.take ((kw.takeWhile (fun x => decide (x ≠ st))).length - 1),
          kw.drop ((kw.takeWhile (fun x => decide (x ≠ st))).length + 1))) := by
  obtain ⟨t0, ht0, hm0⟩ := h1
  have hs : (CARD_TYPES.find? (fun u => decide (u ∈ kw))).isSome :=
    List.find?_isSome.mpr ⟨t0, ht0, decide_eq_true hm0⟩
  obtain ⟨st, hfind⟩ := Option.isSome_iff_exists.mp hs
  have hstCT : st ∈ CARD_TYPES := List.mem_of_find?_eq_some hfind
  have hdec0 := List.find?_some hfind
  have hstkw : st ∈ kw := of_decide_eq_true hdec0
  obtain ⟨e, hnm⟩ := takeWhile_ne_decomp hstkw
  refine ⟨st, hstCT, hstkw,
    fun u hu hukw => find?_min_indexOf hfind u hu (decide_eq_true hukw), ?_, ?_⟩
  · -- the non-reaction branch
    intro hre
    generalize hT : kw.takeWhile (fun x => decide (x ≠ st)) = T at e hnm ⊢
    generalize hD : (kw.dropWhile (fun x => decide (x ≠ st))).tail = D at e
    have hfind2 : CARD_TYPES.find? (fun u => decide (u ∈ T ++ st :: D)) = some st := by
      rw [← e]
      exact hfind
    rw [e, parseKw_split_plain hre hfind2 hnm, List.take_left,
      show T ++ st :: D = (T ++ [st]) ++ D from by simp, List.drop_left' (by simp)]
  · -- the reaction branch
    intro hre
    subst hre
    have hac : "action" ∉ kw := by
      intro hmem
      have hfa : CARD_TYPES.find? (fun u => decide (u ∈ kw)) = some "action" := by
        rw [show CARD_TYPES = "action" :: ["reaction", "equipment", "hero", "instant",
          "item", "weapon", "resource"] from rfl]
        exact List.find?_cons_eq_some.mpr (Or.inl ⟨decide_eq_true hmem, rfl⟩)
      rw [hfind] at hfa
      exact absurd (Option.some.inj hfa) (by decide)
    have hhead : kw.head? ≠ some "reaction" := by
      rcases h2 hstkw with h | h
      · exact absurd h hac
      · exact h
    generalize hT : kw.takeWhile (fun x => decide (x ≠ "reaction")) = T at e hnm ⊢
    generalize hD : (kw.dropWhile (fun x => decide (x ≠ "reaction"))).tail = D at e
    have hl1 : T ≠ [] := by
      intro he
      rw [he] at e
      rw [e] at hhead
      simp at hhead
    refine ⟨by
      rcases Nat.eq_zero_or_pos T.length with h0 | h0
      · exact absurd (List.length_eq_zero.mp h0) hl1
      · exact h0, ?_⟩
    obtain ⟨l₁p, prev, hdecT⟩ : ∃ l₁p prev, T = l₁p ++ [prev] :=
      ⟨_, _, (List.dropLast_append_getLast hl1).symm⟩
    subst hdecT
    have hprev : prev ≠ "reaction" := by
      intro he
      exact hnm (by simp [he])
    have hnm2 : "reaction" ∉ l₁p := fun hm => hnm (by simp [hm])
    have e2 : kw = l₁p ++ prev :: "reaction" :: D := by
      rw [e]
      simp
    have hfind2 : CARD_TYPES.find?
        (fun u => decide (u ∈ l₁p ++ prev :: "reaction" :: D)) = some "reaction" := by
      rw [← e2]
      exact hfind
    have hlen : (l₁p ++ [prev]).length - 1 = l₁p.length := by simp
    have hget : ((l₁p ++ prev :: "reaction" :: D).get? l₁p.length).getD "" = prev := by
      rw [List.get?_append_right (le_refl _), Nat.sub_self]
      rfl
    rw [e2, parseKw_split_reaction hfind2 hnm2 hprev, hlen, hget, List.take_left' rfl,
      show (l₁p ++ [prev]).length + 1 = (l₁p ++ [prev, "reaction"]).length from by simp,
      show l₁p ++ prev :: "reaction" :: D = (l₁p ++ [prev, "reaction"]) ++ D from by simp,
      List.drop_left]

/-- Witness for C5 at the docstring example ["draconic", "ninja", "action", "attack"]. -/
theorem classification_by_card_types_order_witness :
    ∃ st, st ∈ CARD_TYPES ∧ st ∈ ["draconic", "ninja", "action", "attack"] ∧
      (∀ u, u ∈ CARD_TYPES → u ∈ ["draconic", "ninja", "action", "attack"] →
        CARD_TYPES.indexOf st ≤ CARD_TYPES.indexOf u) ∧
      (st ≠ "reaction" →
        parseKw ["draconic", "ninja", "action", "attack"] = .ok (st,
          List.take ((List.takeWhile (fun x => decide (x ≠ st))
            ["draconic", "ninja", "action", "attack"]).length)
            ["draconic", "ninja", "action", "attack"],
          List.drop ((List.takeWhile (fun x => decide (x ≠ st))
            ["draconic", "ninja", "action", "attack"]).length + 1)
            ["draconic", "ninja", "action", "attack"])) ∧
      (st = "reaction" →
        1 ≤ (List.takeWhile (fun x => decide (x ≠ st))
          ["draconic", "ninja", "action", "attack"]).length ∧
        parseKw ["draconic", "ninja", "action", "attack"] = .ok (
          ((["draconic", "ninja", "action", "attack"] : List String).get?
            ((List.takeWhile (fun x => decide (x ≠ st))
              ["draconic", "ninja", "action", "attack"]).length - 1)).getD "" ++
            " " ++ "reaction",
          List.take ((List.takeWhile (fun x => decide (x ≠ st))
            ["draconic", "ninja", "action", "attack"]).length - 1)
            ["draconic", "ninja", "action", "attack"],
          List.drop ((List.takeWhile (fun x => decide (x ≠ st))
            ["draconic", "ninja", "action", "attack"]).length + 1)
            ["draconic", "ninja", "action", "attack"])) :=
  classification_by_card_types_order ["draconic", "ninja", "action", "attack"]
    ⟨"action", by decide, by decide⟩ (by intro h; exact absurd h (by decide))

lemma pyIndex_isOk {l : List String} {i : Int} (h1 : -(l.length : Int) ≤ i)
    (h2 : i < (l.length : Int)) : ∃ s, pyIndex l i = .ok s := by
  by_cases hi : i < 0
  · have hcond : 0 ≤ i + l.length ∧ i + l.length < l.length := by omega
    simp only [pyIndex, if_pos hi, dif_pos hcond]
    exact ⟨_, rfl⟩
  · have hcond : 0 ≤ i ∧ i < l.length := by omega
    simp only [pyIndex, if_neg hi, dif_pos hcond]
    exact ⟨_, rfl⟩

lemma parseKw_isOk {kw : List String} (h : ∃ t, t ∈ CARD_TYPES ∧ t ∈ kw) :
    ∃ x, parseKw kw = .ok x := by
  obtain ⟨t0, ht0, hm0⟩ := h
  have hs : (CARD_TYPES.find? (fun u => decide (u ∈ kw))).isSome :=
    List.find?_isSome.mpr ⟨t0, ht0, decide_eq_true hm0⟩
  obtain ⟨st, hfind⟩ := Option.isSome_iff_exists.mp hs
  have hdec0 := List.find?_some hfind
  have hstkw : st ∈ kw := of_decide_eq_true hdec0
  have hlt : kw.indexOf st < kw.length := List.indexOf_lt_length.mpr hstkw
  have hne : 0 < kw.length := Nat.lt_of_le_of_lt (Nat.zero_le _) hlt
  simp only [parseKw, hfind, Option.getD_some, if_pos hstkw]
  by_cases hre : st = "reaction"
  · rw [if_pos hre]
    obtain ⟨sres, hok⟩ := pyIndex_isOk
      (show -(kw.length : Int) ≤ (kw.indexOf st : Nat) - 1 by omega)
      (show ((kw.indexOf st : Nat) : Int) - 1 < kw.length by omega)
    rw [hok]
    exact ⟨_, rfl⟩
  · rw [if_neg hre]
    exact ⟨_, rfl⟩

/-- C10 (amended): FabCard construction raises the invalid-pitch error whenever an
out-of-range pitch integer is supplied; when the supplied pitch is absent or in range it
succeeds PROVIDED a present keyword list contains at least one supertype token (the
claim as stated fails at a keyword list without one: `keywords.index` raises — see the
counterexample); null keywords yield null type/talents/subtypes, and a non-mapping
"stats" value is tolerated as an empty stat set. -/
theorem card_init_error_conditions (info : RawCardInfo)
    (hk : ∀ kw, info.keywords = some kw → ∃ t, t ∈ CARD_TYPES ∧ t ∈ kw) :
    (∀ v, suppliedPitch info = some v → (v < 0 ∨ 3 < v) →
      FabCard.init info = .error (.valueError "No pitch value")) ∧
    ((∀ v, suppliedPitch info = some v → 0 ≤ v ∧ v ≤ 3) →
      ∃ c, FabCard.init info = .ok c ∧
        (info.keywords = Option.none →
          c.type = Option.none ∧ c.talents = Option.none ∧ c.subtypes = Option.none)) ∧
    (info.stats = some RawStatsValue.nonMapping →
      suppliedPitch info = Option.none ∧
      ∃ c, FabCard.init info = .ok c ∧ c.cost = Option.none ∧ c.attack = Option.none ∧
        c.defense = Option.none ∧ c.pitch = PitchValue.none ∧ c.life = Option.none ∧
        c.intellect = Option.none) := by
  have hkwok : ∀ pitch : PitchValue,
      ∃ y, parseKeywords info.keywords = .ok y ∧
        (info.keywords = Option.none → y = (Option.none, Option.none, Option.none)) := by
    intro _
    rcases hkw : info.keywords with _ | kw
    · exact ⟨_, rfl, fun _ => rfl⟩
    · obtain ⟨x, hx⟩ := parseKw_isOk (hk kw hkw)
      obtain ⟨st, tal, subs⟩ := x
      have hpk : parseKeywords (some kw) = .ok (some st, some tal, some subs) := by
        simp only [parseKeywords, hx]
      exact ⟨_, hpk, fun h => Option.noConfusion h⟩
  refine ⟨?_, ?_, ?_⟩
  · intro v hv hout
    have hrange : ¬(-1 < v ∧ v < 4) := by omega
    have hfrom : PitchValue.fromInt (some v) = .error (.valueError "No pitch value") := by
      simp [PitchValue.fromInt, hrange]
    rcases hst : info.stats with _ | vst
    · simp [suppliedPitch, hst] at hv
    · cases vst with
      | mapping s =>
        simp only [suppliedPitch, hst] at hv
        simp only [FabCard.init, hst]
        rw [hv, hfrom]
      | nonMapping =>
        simp [suppliedPitch, hst] at hv
  · intro hbound
    have hfin : ∀ hst2 : Option RawStatsValue, info.stats = hst2 →
        (∀ y, parseKeywords info.keywords = .ok y →
          ∃ p, PitchValue.fromInt ((match hst2 with
            | some (RawStatsValue.mapping s) => s
            | _ => ({} : RawStats)).resource) = .ok p) := by
      intro hst2 hst y _
      rcases hst2 with _ | vst
      · exact ⟨_, rfl⟩
      · cases vst with
        | mapping s =>
          rcases hr : s.resource with _ | v
          · exact ⟨_, rfl⟩
          · have hb := hbound v (by simp only [suppliedPitch, hst]; exact hr)
            obtain ⟨h0, h3⟩ := hb
            interval_cases v
            · exact ⟨_, rfl⟩
            · exact ⟨_, rfl⟩
            · exact ⟨_, rfl⟩
            · exact ⟨_, rfl⟩
        | nonMapping => exact ⟨_, rfl⟩
    obtain ⟨⟨ty, tal, subs⟩, hy, hnone⟩ := hkwok PitchValue.none
    obtain ⟨p, hp⟩ := hfin info.stats rfl _ hy
    have hinit : ∃ c, FabCard.init info = .ok c ∧
        c.type = ty ∧ c.talents = tal ∧ c.subtypes = subs := by
      simp only [FabCard.init, hy, hp]
      exact ⟨_, rfl, rfl, rfl, rfl⟩
    obtain ⟨c, hc, hty, htal, hsub⟩ := hinit
    refine ⟨c, hc, ?_⟩
    intro h
    have h0 := hnone h
    injection h0 with h1 h2
    injection h2 with h2 h3
    rw [hty, htal, hsub, h1, h2, h3]
    exact ⟨rfl, rfl, rfl⟩
  · intro hst
    refine ⟨by simp only [suppliedPitch, hst], ?_⟩
    obtain ⟨⟨ty, tal, subs⟩, hy, hnone⟩ := hkwok PitchValue.none
    have hinit : ∃ c, FabCard.init info = .ok c ∧ c.cost = Option.none ∧
        c.attack = Option.none ∧ c.defense = Option.none ∧ c.pitch = PitchValue.none ∧
        c.life = Option.none ∧ c.intellect = Option.none := by
      simp only [FabCard.init, hst, hy]
      exact ⟨_, rfl, rfl, rfl, rfl, rfl, rfl, rfl⟩
    obtain ⟨c, hc, h1, h2, h3, h4, h5, h6⟩ := hinit
    exact ⟨c, hc, h1, h2, h3, h4, h5, h6⟩


/-- Witness for C10 at a payload with a non-mapping stats value. -/
theorem card_init_error_conditions_witness :
    suppliedPitch rawArrayStats = Option.none ∧
    ∃ c, FabCard.init rawArrayStats = .ok c ∧ c.cost = Option.none ∧
      c.attack = Option.none ∧ c.defense = Option.none ∧ c.pitch = PitchValue.none ∧
      c.life = Option.none ∧ c.intellect = Option.none :=
  (card_init_error_conditions rawArrayStats
    (fun kw h => by
      rw [show rawArrayStats.keywords = some ["generic", "action"] from rfl] at h
      injection h with h
      subst h
      exact ⟨"action", by decide, by decide⟩)).2.2 rfl

/-- C5 (counterexample): on the keyword sequence ["weapon", "action"], the first tag in
SEQUENCE order that belongs to the supertype set is "weapon" at index 0 — so the claim
prescribes pivot 0, supertype "weapon", empty talents — but the code scans CARD_TYPES in
its own order and selects "action" at index 1, making "weapon" a talent. -/
theorem classification_scan_order_cex :
    parseKw ["weapon", "action"] = .ok ("action", ["weapon"], []) ∧
    List.find? (fun t => decide (t ∈ CARD_TYPES)) ["weapon", "action"] = some "weapon" ∧
    "action" ≠ "weapon" :=
  ⟨rfl, rfl, by decide⟩

/-- C6 (counterexample): the sequence ["reaction"] contains exactly one supertype-set
token, yet the derived parts do not reconstruct it: the pivot backup makes Python read
keywords[-1] (the LAST token), so the supertype becomes "reaction reaction" and the
concatenation of talents, supertype tokens and subtypes has two tokens, not one. -/
theorem keyword_reconstruction_cex :
    (["reaction"] : List String).countP (fun t => decide (t ∈ CARD_TYPES)) = 1 ∧
    parseKw ["reaction"] = .ok ("reaction reaction", [], []) ∧
    ([] : List String) ++ superTokens ["reaction"] ++ [] ≠ ["reaction"] :=
  ⟨by decide, rfl, by decide⟩

/-- C10 (counterexample): a payload supplying NO pitch integer at all (no "stats" key)
whose keyword list contains no supertype token makes FabCard construction raise a
ValueError from `keywords.index` — refuting "raises only when an out-of-range pitch
integer is supplied". -/
theorem card_init_error_cex :
    FabCard.init rawNoSupertype = .error (.valueError "is not in list") ∧
    rawNoSupertype.stats = Option.none :=
  ⟨rfl, rfl⟩

lemma readItem_ok {r : FabCardResults} {p i : Nat} {pg : List FabCard} {f : List Nat}
    (hslot : r.pages.get? p = some (some pg)) (hlen : i < pg.length) :
    ∃ c, r.readItem p i f = .ok (c, r, f) ∧ pg.get? i = some c := by
  have hget := List.get?_eq_get hlen
  simp only [FabCardResults.readItem, hslot, hget]
  exact ⟨_, rfl, rfl⟩

lemma page_index_bounds {fetch : Nat → List RawCardInfo} {r : FabCardResults}
    {content : Nat → List FabCard} (hwf : FabCardResults.WF fetch r content) {index : Nat}
    (hidx : index < r.total_results) :
    index / r.page_size < r.total_pages ∧
    index % r.page_size < (content (index / r.page_size)).length := by
  have hps := hwf.ps_pos
  have hp : index / r.page_size < r.total_pages := by
    by_contra hge
    push_neg at hge
    have h1 : r.total_pages * r.page_size ≤ (index / r.page_size) * r.page_size :=
      Nat.mul_le_mul_right _ hge
    have h2 : (index / r.page_size) * r.page_size ≤ index := Nat.div_mul_le_self _ _
    have := hwf.total_le
    omega
  refine ⟨hp, ?_⟩
  rw [hwf.content_len _ hp]
  have hm : index % r.page_size < r.page_size := Nat.mod_lt _ hps
  have hmod : r.page_size * (index / r.page_size) + index % r.page_size = index :=
    Nat.div_add_mod index r.page_size
  have hcomm : (index / r.page_size) * r.page_size = r.page_size * (index / r.page_size) :=
    Nat.mul_comm _ _
  rw [hcomm]
  omega

lemma getItem_cached {fetch : Nat → List RawCardInfo} {r : FabCardResults}
    {content : Nat → List FabCard} (hwf : FabCardResults.WF fetch r content)
    {index : Nat} {pg : List FabCard} (hidx : index < r.total_results)
    (hslot : r.pages.get? (index / r.page_size) = some (some pg)) :
    ∃ c, r.getItem fetch index = .ok (c, r, []) ∧
      (content (index / r.page_size)).get? (index % r.page_size) = some c := by
  obtain ⟨hp, hi⟩ := page_index_bounds hwf hidx
  have hpg : pg = content (index / r.page_size) := hwf.cached_ok _ _ hslot
  subst hpg
  simp only [FabCardResults.getItem, if_neg (Nat.not_le.mpr hidx),
    if_neg (Nat.pos_iff_ne_zero.mp hwf.ps_pos), hslot]
  exact readItem_ok hslot hi

lemma getItem_uncached {fetch : Nat → List RawCardInfo} {r : FabCardResults}
    {content : Nat → List FabCard} (hwf : FabCardResults.WF fetch r content)
    {index : Nat} (hidx : index < r.total_results)
    (hslot : r.pages.get? (index / r.page_size) = some Option.none) :
    ∃ c, r.getItem fetch index =
      .ok (c, r.withPage (index / r.page_size) (content (index / r.page_size)),
        [index / r.page_size]) ∧
      (content (index / r.page_size)).get? (index % r.page_size) = some c := by
  obtain ⟨hp, hi⟩ := page_index_bounds hwf hidx
  have hplen : index / r.page_size < r.pages.length := by
    rw [hwf.pages_len]
    exact hp
  have hfetch := hwf.fetch_ok _ hp
  have hslot2 : (r.withPage (index / r.page_size)
      (content (index / r.page_size))).pages.get? (index / r.page_size) =
      some (some (content (index / r.page_size))) :=
    List.get?_set_eq_of_lt _ hplen
  simp only [FabCardResults.getItem, if_neg (Nat.not_le.mpr hidx),
    if_neg (Nat.pos_iff_ne_zero.mp hwf.ps_pos), hslot, FabCardResults.getPage,
    FabCardResults.loadPage, hfetch, if_pos hplen]
  exact readItem_ok hslot2 hi

lemma wf_set {fetch : Nat → List RawCardInfo} {r : FabCardResults}
    {content : Nat → List FabCard} (hwf : FabCardResults.WF fetch r content)
    {p : Nat} (hp : p < r.total_pages) :
    FabCardResults.WF fetch (r.withPage p (content p)) content := by
  refine ⟨hwf.ps_pos, ?_, hwf.total_le, hwf.content_len, hwf.fetch_ok, ?_⟩
  · simp only [FabCardResults.withPage, List.length_set]
    exact hwf.pages_len
  · intro k pg hk
    have hk2 : (r.pages.set p (some (content p))).get? k = some (some pg) := hk
    by_cases hkp : p = k
    · subst hkp
      have hplen : p < r.pages.length := by
        rw [hwf.pages_len]
        exact hp
      rw [List.get?_set_eq_of_lt _ hplen] at hk2
      injection hk2 with hk2
      injection hk2 with hk2
      exact hk2.symm
    · rw [List.get?_set_ne _ _ hkp] at hk2
      exact hwf.cached_ok k pg hk2

/-- C7: under the page-content invariant, `__getitem__` fails with the index-out-of-range
error exactly when the index reaches `total_results`, and otherwise returns the item at
offset `index % page_size` of page `index // page_size` (the concrete 250/100 cases of
the claim are instances: 0 and 99 resolve to page 0, 100 to page 1, 249 to page 2, 250
raises). -/
theorem getitem_index_resolution (fetch : Nat → List RawCardInfo) (r : FabCardResults)
    (content : Nat → List FabCard) (hwf : FabCardResults.WF fetch r content) (index : Nat) :
    (r.total_results ≤ index →
      r.getItem fetch index = .error (.indexError "list index out of range")) ∧
    (index < r.total_results →
      ∃ c st fp, r.getItem fetch index = .ok (c, st, fp) ∧
        (content (index / r.page_size)).get? (index % r.page_size) = some c) := by
  constructor
  · intro h
    simp only [FabCardResults.getItem, if_pos h]
  · intro hidx
    have hplen : index / r.page_size < r.pages.length := by
      rw [hwf.pages_len]
      exact (page_index_bounds hwf hidx).1
    have hslot := List.get?_eq_get hplen
    rcases hv : r.pages.get ⟨index / r.page_size, hplen⟩ with _ | pg
    · rw [hv] at hslot
      obtain ⟨c, hc, hcc⟩ := getItem_uncached hwf hidx hslot
      exact ⟨c, _, _, hc, hcc⟩
    · rw [hv] at hslot
      obtain ⟨c, hc, hcc⟩ := getItem_cached hwf hidx hslot
      exact ⟨c, _, _, hc, hcc⟩

/-- C8: a page is fetched at most once — `__getitem__` with the page already cached
returns without fetching and leaves the state untouched; with the slot empty it fetches
exactly that page and fills exactly that slot (no other slot changes, so no cached page
is evicted or refetched); two accesses resolving to the same empty-slot page trigger
exactly one fetch across both; and `__len__` returns `total_results` as a pure read of
the state, performing no fetch. -/
theorem page_fetched_at_most_once (fetch : Nat → List RawCardInfo) (r : FabCardResults)
    (content : Nat → List FabCard) (hwf : FabCardResults.WF fetch r content) :
    r.len = r.total_results ∧
    (∀ index pg, index < r.total_results →
      r.pages.get? (index / r.page_size) = some (some pg) →
      ∃ c, r.getItem fetch index = .ok (c, r, [])) ∧
    (∀ index, index < r.total_results →
      r.pages.get? (index / r.page_size) = some Option.none →
      ∃ c, r.getItem fetch index = .ok (c,
        r.withPage (index / r.page_size) (content (index / r.page_size)),
        [index / r.page_size])) ∧
    (∀ i j, i < r.total_results → j < r.total_results →
      j / r.page_size = i / r.page_size →
      r.pages.get? (i / r.page_size) = some Option.none →
      ∃ c₁ r₁ c₂, r.getItem fetch i = .ok (c₁, r₁, [i / r.page_size]) ∧
        r₁.getItem fetch j = .ok (c₂, r₁, [])) := by
  refine ⟨rfl, ?_, ?_, ?_⟩
  · intro index pg hidx hslot
    obtain ⟨c, hc, _⟩ := getItem_cached hwf hidx hslot
    exact ⟨c, hc⟩
  · intro index hidx hslot
    obtain ⟨c, hc, _⟩ := getItem_uncached hwf hidx hslot
    exact ⟨c, hc⟩
  · intro i j hi hj hdiv hslot
    obtain ⟨c₁, hc₁, _⟩ := getItem_uncached hwf hi hslot
    have hp : i / r.page_size < r.total_pages := (page_index_bounds hwf hi).1
    have hwf2 := wf_set hwf hp
    have hplen : i / r.page_size < r.pages.length := by
      rw [hwf.pages_len]
      exact hp
    have hslot2 : (r.withPage (i / r.page_size)
        (content (i / r.page_size))).pages.get? (j / r.page_size) =
        some (some (content (i / r.page_size))) := by
      rw [hdiv]
      exact List.get?_set_eq_of_lt _ hplen
    have hj2 : j < (r.withPage (i / r.page_size) (content (i / r.page_size))).total_results :=
      hj
    obtain ⟨c₂, hc₂, _⟩ := getItem_cached hwf2 hj2 (by
      rw [show (r.withPage (i / r.page_size) (content (i / r.page_size))).page_size =
        r.page_size from rfl, hdiv]
      rw [hdiv] at hslot2
      exact hslot2)
    exact ⟨c₁, _, c₂, hc₁, hc₂⟩

lemma wfFixture : FabCardResults.WF fetchFixture resultsFixture contentFixture := by
  refine ⟨by decide, by decide, by decide, ?_, ?_, ?_⟩
  · intro k hk
    have hk3 : k < 3 := hk
    interval_cases k <;> rfl
  · intro k hk
    have hk3 : k < 3 := hk
    interval_cases k <;> rfl
  · intro k pg hk
    match k with
    | 0 =>
      injection hk with h1
      injection h1 with h2
      rw [← h2]
      rfl
    | 1 =>
      injection hk with h1
      exact Option.noConfusion h1
    | 2 =>
      injection hk with h1
      exact Option.noConfusion h1
    | (n + 3) => exact Option.noConfusion hk

/-- Witness for C7 on the concrete 5-result 2-per-page fixture: index 5 raises, index 2
resolves to page 1 offset 0. -/
theorem getitem_index_resolution_witness :
    FabCardResults.getItem fetchFixture resultsFixture 5 =
      .error (.indexError "list index out of range") ∧
    ∃ c st fp, FabCardResults.getItem fetchFixture resultsFixture 2 = .ok (c, st, fp) ∧
      (contentFixture (2 / resultsFixture.page_size)).get?
        (2 % resultsFixture.page_size) = some c :=
  ⟨(getitem_index_resolution fetchFixture resultsFixture contentFixture wfFixture 5).1
      (by decide),
   (getitem_index_resolution fetchFixture resultsFixture contentFixture wfFixture 2).2
      (by decide)⟩

/-- Witness for C8 on the concrete fixture: accessing index 2 then index 3 (both on the
unfetched page 1) fetches page 1 exactly once. -/
theorem page_fetched_at_most_once_witness :
    resultsFixture.len = resultsFixture.total_results ∧
    ∃ c₁ r₁ c₂, FabCardResults.getItem fetchFixture resultsFixture 2 =
        .ok (c₁, r₁, [2 / resultsFixture.page_size]) ∧
      FabCardResults.getItem fetchFixture r₁ 3 = .ok (c₂, r₁, []) :=
  ⟨(page_fetched_at_most_once fetchFixture resultsFixture contentFixture wfFixture).1,
   (page_fetched_at_most_once fetchFixture resultsFixture contentFixture wfFixture).2.2.2
     2 3 (by decide) (by decide) (by decide) (by decide)⟩
